import Mathlib

/-!
Shallow embedding of the machine-agent supervisor core of the juju repository,
covering:

* `MachineAgent` restore-mode flags and transitions
  (cmd/jujud/agent/machine.go: PrepareRestore, BeginRestore, EndRestore);
* login admission during restore and upgrade
  (machine.go: limitLogins, limitLoginsDuringRestore, limitLoginsDuringUpgrade);
* the wait-for-upgrade worker wrapper
  (machine.go: startWorkerAfterUpgrade / upgradeWaiterWorker), modelled as a
  deterministic function of a select schedule validated against channel states;
* the per-model worker manager
  (worker/leadership/manifold.go, package envworkermanager: envHasChanged,
  envIsAlive, envIsDying, envIsDead, envNotFound), with the runner modelled by
  its set of names in desired running state;
* agent uninstall on the TerminateAgent sentinel
  (machine.go: Run, uninstallAgent, removeJujudSymlinks), with external calls
  modelled by an environment of call outcomes;
* mongo initialisation (machine.go: ensureMongoServer), likewise;
* the simplestreams image-metadata processing pipeline
  (package imagemetadata: applyAliases, processAliases,
  denormaliseImageMetadata, inherit, setFieldByTag, fieldByTag,
  getCloudMetadataWithFormat), with Go maps modelled as association lists,
  the reflective tag walk modelled by explicit per-struct tag tables, and the
  randomized map-iteration order of the alias pass modelled by an explicit
  tag-order parameter.
-/

namespace JujuVerify

/-! ## Tags and login requests (github.com/juju/names, apiserver/params) -/

/-- An authentication tag: the kinds distinguished by the login limiters.
`names.ParseTag` can produce other kinds (unit, service, ...); they all take
the default branch of the type switches, collapsed here into `other`. -/
inductive Tag where
  | user (name : String)
  | machine (id : String)
  | other (repr : String)
  deriving DecidableEq, Repr

/-- A login request, reduced to the auth tag that the limiters inspect.
`none` models a request whose AuthTag fails to parse. -/
structure LoginRequest where
  authTag : Option Tag
  deriving DecidableEq, Repr

/-- The error outcomes of the login limiters. `none` at the call site means
the login is allowed; each constructor stands for one distinct error value
produced in machine.go. -/
inductive LoginError where
  | restoreInProgress
  | aboutToRestore
  | upgradeInProgress
  | couldNotParseAuthTag
  | loginBlockedRestore (tag : Tag)
  | loginBlockedUpgrade (tag : Tag)
  deriving DecidableEq, Repr

/-! ## MachineAgent state (machine.go struct MachineAgent)

Channel-typed fields (`upgradeComplete`, `initialAgentUpgradeCheckComplete`)
are "channels used as selectable bools (closed means true)" per the source
comments; they are modelled by the Bool that says whether the channel is
closed. -/

/-- The fields of machine.go struct MachineAgent that the verified operations
read or write. -/
structure MachineAgent where
  machineId : String
  restoreMode : Bool
  restoring : Bool
  /-- true iff the upgradeComplete channel is closed. -/
  upgradeCompleteClosed : Bool
  /-- true iff the initialAgentUpgradeCheckComplete channel is closed. -/
  initialAgentUpgradeCheckClosed : Bool
  deriving DecidableEq, Repr

/-- machine.go MachineAgent.Tag: the agent's own machine tag. -/
def MachineAgent.tag (a : MachineAgent) : Tag := .machine a.machineId

/-- machine.go MachineAgent.IsRestoreRunning. -/
def MachineAgent.IsRestoreRunning (a : MachineAgent) : Bool := a.restoring

/-- machine.go MachineAgent.IsRestorePreparing. -/
def MachineAgent.IsRestorePreparing (a : MachineAgent) : Bool :=
  a.restoreMode && !a.restoring

/-- machine.go MachineAgent.isUpgradeRunning: true while upgradeComplete is
not closed. -/
def MachineAgent.isUpgradeRunning (a : MachineAgent) : Bool :=
  !a.upgradeCompleteClosed

/-- machine.go MachineAgent.isAgentUpgradePending: true while
initialAgentUpgradeCheckComplete is not closed. -/
def MachineAgent.isAgentUpgradePending (a : MachineAgent) : Bool :=
  !a.initialAgentUpgradeCheckClosed

/-! ## Restore-mode transitions (machine.go) -/

/-- machine.go MachineAgent.PrepareRestore. Returns the error (or none) and
the agent state after the call; a failing call leaves the receiver as it was. -/
def MachineAgent.PrepareRestore (a : MachineAgent) : Option String × MachineAgent :=
  if a.restoreMode then
    (some "already in restore mode", a)
  else
    (none, { a with restoreMode := true })

/-- machine.go MachineAgent.BeginRestore. -/
def MachineAgent.BeginRestore (a : MachineAgent) : Option String × MachineAgent :=
  if !a.restoreMode then
    (some "not in restore mode, cannot begin restoration", a)
  else if a.restoring then
    (some "already restoring", a)
  else
    (none, { a with restoring := true })

/-- machine.go MachineAgent.EndRestore: unconditionally clears both flags. -/
def MachineAgent.EndRestore (a : MachineAgent) : MachineAgent :=
  { a with restoreMode := false, restoring := false }

/-- The observable restore-mode state: the pair (restoreMode, restoring). -/
def MachineAgent.restorePair (a : MachineAgent) : Bool × Bool :=
  (a.restoreMode, a.restoring)

/-- The idle restore state: not in restore mode, not restoring. -/
def idlePair : Bool × Bool := (false, false)

/-- The preparing restore state. -/
def preparingPair : Bool × Bool := (true, false)

/-- The running restore state. -/
def runningPair : Bool × Bool := (true, true)

/-- The restore flag pairs reachable from idle via the three transition
operations: (restoring → restoreMode), i.e. the pair (false, true) never
arises. -/
def MachineAgent.restoreReachable (a : MachineAgent) : Bool :=
  !a.restoring || a.restoreMode

/-! ## Login admission (machine.go) -/

/-- machine.go MachineAgent.limitLoginsDuringRestore. The first component of
the Go switch picks the error for the current restore phase; when it is
non-nil the auth tag decides between allowing (own machine), returning the
phase error as a restricted-mode signal (user), and refusing outright. -/
def MachineAgent.limitLoginsDuringRestore (a : MachineAgent) (req : LoginRequest) :
    Option LoginError :=
  let phaseErr : Option LoginError :=
    if a.IsRestoreRunning then some .restoreInProgress
    else if a.IsRestorePreparing then some .aboutToRestore
    else none
  match phaseErr with
  | none => none
  | some e =>
    match req.authTag with
    | none => some .couldNotParseAuthTag
    | some (.user _) => some e
    | some (.machine id) =>
      if Tag.machine id = a.tag then none
      else some (.loginBlockedRestore (.machine id))
    | some t => some (.loginBlockedRestore t)

/-- machine.go MachineAgent.limitLoginsDuringUpgrade. -/
def MachineAgent.limitLoginsDuringUpgrade (a : MachineAgent) (req : LoginRequest) :
    Option LoginError :=
  if a.isUpgradeRunning || a.isAgentUpgradePending then
    match req.authTag with
    | none => some .couldNotParseAuthTag
    | some (.user _) => some .upgradeInProgress
    | some (.machine id) =>
      if Tag.machine id = a.tag then none
      else some (.loginBlockedUpgrade (.machine id))
    | some t => some (.loginBlockedUpgrade t)
  else
    none

/-- machine.go MachineAgent.limitLogins: restore check first, then upgrade
check. -/
def MachineAgent.limitLogins (a : MachineAgent) (req : LoginRequest) :
    Option LoginError :=
  match a.limitLoginsDuringRestore req with
  | some e => some e
  | none => a.limitLoginsDuringUpgrade req

/-! ## The wait-for-upgrade wrapper (machine.go upgradeWaiterWorker)

The worker body loops over the two gate channels, at each step selecting
between the stop channel and the gate channel.  A run of the body is
determined by a schedule saying which branch each select took; a schedule is
valid for given channel states only if every branch it takes was ready
(receive on a closed channel is ready; these channels are only ever closed,
never sent on, so an unclosed channel never fires). -/

/-- Which branch one select statement in the waiter loop took. -/
inductive SelectChoice where
  | stop
  | gateFired
  deriving DecidableEq, Repr

/-- The branches taken by the two selects of the waiter loop, in order:
first the upgradeComplete gate, then initialAgentUpgradeCheckComplete. -/
structure WaiterSchedule where
  first : SelectChoice
  second : SelectChoice
  deriving DecidableEq, Repr

/-- Channel states observed at one select of the waiter loop. -/
structure GateObservation where
  stopClosed : Bool
  upgradeCompleteClosed : Bool
  initialCheckClosed : Bool
  deriving DecidableEq, Repr

/-- A schedule is valid for the channel states observed at each of the two
selects iff every branch taken was ready at its select. -/
def scheduleValid (s : WaiterSchedule) (obs1 obs2 : GateObservation) : Bool :=
  (match s.first with
   | .stop => obs1.stopClosed
   | .gateFired => obs1.upgradeCompleteClosed) &&
  (match s.second with
   | .stop => obs2.stopClosed
   | .gateFired => obs2.initialCheckClosed)

/-- Outcome of the waiter body up to the point where the inner factory would
be invoked. `returnedNilWithoutStart` is the path that returns nil from the
select loop; `invokedInner` is the path that falls through the loop and calls
the start factory. -/
inductive WaiterOutcome where
  | returnedNilWithoutStart
  | invokedInner
  deriving DecidableEq, Repr

/-- machine.go MachineAgent.upgradeWaiterWorker body, up to the invocation of
the inner start factory: iterate over the two gate channels, returning nil as
soon as a select picks the stop branch. -/
def upgradeWaiterWait (s : WaiterSchedule) : WaiterOutcome :=
  match s.first with
  | .stop => .returnedNilWithoutStart
  | .gateFired =>
    match s.second with
    | .stop => .returnedNilWithoutStart
    | .gateFired => .invokedInner

/-! ## Per-model worker manager (package envworkermanager)

The runner is modelled by the set of worker names in desired running state:
StartWorker ensures membership, StopWorker removes the name.  envHasChanged
takes the result of the GetEnvironment lookup (`none` models a not-found
error; lookup failures other than not-found abort without touching the
runner and are not modelled). -/

/-- Model lifecycle state (state.Alive / Dying / Dead). -/
inductive Life where
  | alive
  | dying
  | dead
  deriving DecidableEq, Repr

/-- The names currently registered with desired running state in the
manager's runner. -/
abbrev RunnerState := List String

/-- worker.Runner.StartWorker as seen through desired state: registers the
name if absent, no-op if already running. -/
def startWorker (s : RunnerState) (name : String) : RunnerState :=
  if name ∈ s then s else name :: s

/-- worker.Runner.StopWorker as seen through desired state: removes the
name; idempotent. -/
def stopWorker (s : RunnerState) (name : String) : RunnerState :=
  s.filter (fun n => n ≠ name)

/-- Whether the named worker is in desired running state. -/
def desiredRunning (s : RunnerState) (name : String) : Bool := name ∈ s

/-- envworkermanager dyingEnvWorkerId. -/
def dyingEnvWorkerId (uuid : String) : String := "dying" ++ ":" ++ uuid

/-- envworkermanager envWorkerManager.envIsAlive: start the alive worker for
the model (the factory argument is irrelevant to desired state). -/
def envIsAlive (s : RunnerState) (uuid : String) : RunnerState :=
  startWorker s uuid

/-- envworkermanager envWorkerManager.envIsDying: start the dying worker. -/
def envIsDying (s : RunnerState) (uuid : String) : RunnerState :=
  startWorker s (dyingEnvWorkerId uuid)

/-- envworkermanager envWorkerManager.envIsDead: stop the alive worker.
The source stops only `uuid`, not `dyingEnvWorkerId uuid`. -/
def envIsDead (s : RunnerState) (uuid : String) : RunnerState :=
  stopWorker s uuid

/-- envworkermanager envWorkerManager.envNotFound: stop both workers. -/
def envNotFound (s : RunnerState) (uuid : String) : RunnerState :=
  stopWorker (stopWorker s uuid) (dyingEnvWorkerId uuid)

/-- envworkermanager envWorkerManager.envHasChanged, dispatching on the
result of the GetEnvironment lookup. -/
def envHasChanged (s : RunnerState) (uuid : String) (lookup : Option Life) :
    RunnerState :=
  match lookup with
  | none => envNotFound s uuid
  | some .alive => envIsAlive s uuid
  | some .dying => envIsDying s uuid
  | some .dead => envIsDead s uuid

/-! ## Uninstall on TerminateAgent (machine.go Run / uninstallAgent)

External calls (service discovery, file removal, container detection, mongo
service removal) are modelled by an environment holding each call's outcome.
Errors are modelled as strings; `os.Remove` outcomes already have the
IsNotExist case filtered out, as in removeJujudSymlinks. -/

instance exceptDecEq {ε α : Type} [DecidableEq ε] [DecidableEq α] :
    DecidableEq (Except ε α) := fun a b =>
  match a, b with
  | .error e1, .error e2 =>
    if h : e1 = e2 then .isTrue (by rw [h])
    else .isFalse (by intro hc; cases hc; exact h rfl)
  | .ok x, .ok y =>
    if h : x = y then .isTrue (by rw [h])
    else .isFalse (by intro hc; cases hc; exact h rfl)
  | .error _, .ok _ => .isFalse (by intro hc; cases hc)
  | .ok _, .error _ => .isFalse (by intro hc; cases hc)

/-- Outcomes of the external calls made by uninstallAgent, plus the inputs it
reads (uninstall marker presence, service-name configuration). -/
structure UninstallEnv where
  /-- os.Stat on the uninstall-agent marker file succeeds. -/
  uninstallFileExists : Bool
  /-- agentConfig.Value(agent.AgentServiceName). -/
  agentServiceNameConfig : String
  /-- os.Getenv UPSTART_JOB, the backwards-compatibility fallback. -/
  upstartJobEnvVar : String
  /-- service.DiscoverService: ok, or an error message. -/
  discoverServiceResult : Except String Unit
  /-- svc.Remove error, when discovery succeeded. -/
  serviceRemoveError : Option String
  /-- error removing the juju-run symlink (IsNotExist filtered out). -/
  jujuRunRemoveError : Option String
  /-- error removing the juju-dumplogs symlink (IsNotExist filtered out). -/
  jujuDumpLogsRemoveError : Option String
  /-- lxcutils.RunningInsideLXC: inside-container flag, or an error. -/
  runningInsideLXC : Except String Bool
  /-- loopDeviceManager.DetachLoopDevices error. -/
  detachLoopDevicesError : Option String
  /-- mongo.RemoveService error. -/
  mongoRemoveServiceError : Option String
  /-- os.RemoveAll on the data directory error. -/
  removeAllError : Option String
  deriving DecidableEq, Repr

/-- The uninstall steps machine.go uninstallAgent can attempt. -/
inductive UninstallStep where
  | discoverService
  | removeService
  | removeSymlinks
  | checkInsideLXC
  | detachLoopDevices
  | removeMongoService
  | removeDataDir
  deriving DecidableEq, Repr

/-- machine.go MachineAgent.removeJujudSymlinks: the errors from removing the
two well-known symlinks. -/
def removeJujudSymlinks (env : UninstallEnv) : List String :=
  env.jujuRunRemoveError.toList ++ env.jujuDumpLogsRemoveError.toList

/-- The effective agent service name: the configured value, or the
UPSTART_JOB environment variable when the configuration is empty. -/
def effectiveAgentServiceName (env : UninstallEnv) : String :=
  if env.agentServiceNameConfig ≠ "" then env.agentServiceNameConfig
  else env.upstartJobEnvVar

/-- The steps attempted and the errors collected by the service-removal part
of uninstallAgent: discovery only happens for a non-empty service name, and
svc.Remove only after successful discovery. -/
def serviceRemovalPart (env : UninstallEnv) : List UninstallStep × List String :=
  if effectiveAgentServiceName env ≠ "" then
    match env.discoverServiceResult with
    | .error e => ([.discoverService], ["cannot remove service: " ++ e])
    | .ok () =>
      match env.serviceRemoveError with
      | some e => ([.discoverService, .removeService], ["cannot remove service: " ++ e])
      | none => ([.discoverService, .removeService], [])
  else ([], [])

/-- The steps attempted and the errors collected by the container part of
uninstallAgent: loop devices are detached only when the inside-LXC probe
succeeds and reports true. -/
def lxcPart (env : UninstallEnv) : List UninstallStep × List String :=
  match env.runningInsideLXC with
  | .error e => ([.checkInsideLXC], [e])
  | .ok true =>
    match env.detachLoopDevicesError with
    | some e => ([.checkInsideLXC, .detachLoopDevices], [e])
    | none => ([.checkInsideLXC, .detachLoopDevices], [])
  | .ok false => ([.checkInsideLXC], [])

/-- The steps uninstallAgent attempts once past the marker check, in order. -/
def uninstallSteps (env : UninstallEnv) : List UninstallStep :=
  (serviceRemovalPart env).1 ++ [.removeSymlinks] ++ (lxcPart env).1 ++
    [.removeMongoService, .removeDataDir]

/-- The per-step errors uninstallAgent collects once past the marker check,
in the order the source appends them. -/
def uninstallErrors (env : UninstallEnv) : List String :=
  (serviceRemovalPart env).2 ++ removeJujudSymlinks env ++ (lxcPart env).2 ++
    (env.mongoRemoveServiceError.map
      (fun e => "cannot stop/remove mongo service: " ++ e)).toList ++
    env.removeAllError.toList

/-- machine.go MachineAgent.uninstallAgent: returns nil immediately when the
uninstall marker is absent; otherwise attempts every step, collects the
per-step errors, and returns nil iff none occurred, else one error holding
them all ("uninstall failed: %v" over the collected list, modelled as the
list itself). The first component records the steps attempted. -/
def uninstallAgent (env : UninstallEnv) : List UninstallStep × Option (List String) :=
  if !env.uninstallFileExists then ([], none)
  else
    (uninstallSteps env,
      if (uninstallErrors env).isEmpty then none else some (uninstallErrors env))

/-- The terminal errors machine.go Run distinguishes after runner.Wait.
ErrRebootMachine / ErrShutdownMachine lead into executeRebootOrShutdown,
which is out of scope here; `otherError` covers every non-sentinel error. -/
inductive AgentTerminalError where
  | terminateAgent
  | otherError (msg : String)
  deriving DecidableEq, Repr

/-- machine.go MachineAgent.Run, after runner.Wait returns: the
ErrTerminateAgent sentinel is replaced by the result of uninstallAgent; any
other error is passed through (and reported). The pair is (uninstall steps
performed, error handed to AgentDone); a `none` error is a clean exit. -/
def runAfterWait (waitErr : AgentTerminalError) (env : UninstallEnv) :
    List UninstallStep × Option (List String) :=
  match waitErr with
  | .terminateAgent => uninstallAgent env
  | .otherError msg => ([], some [msg])

/-! ## Mongo initialisation (machine.go ensureMongoServer) -/

/-- Outcomes of the external calls made by ensureMongoServer. -/
structure MongoEnv where
  /-- mongo.IsServiceInstalled: installed flag, or an error. -/
  isServiceInstalled : Except String Bool
  /-- ensureMongoAdminUser error. -/
  ensureAdminUserError : Option String
  /-- ensureMongoSharedSecret error. -/
  ensureSharedSecretError : Option String
  /-- agentConfig.MongoInfo present (after the shared-secret update). -/
  mongoInfoPresent : Bool
  /-- isReplicasetInitNeeded: needed flag, or an error. -/
  isReplicasetInitNeeded : Except String Bool
  /-- getMachineAddresses error. -/
  getMachineAddressesError : Option String
  /-- cmdutil.NewEnsureServerParams error. -/
  newEnsureServerParamsError : Option String
  /-- cmdutil.EnsureMongoServer error. -/
  ensureMongoServerError : Option String
  /-- agentConfig.StateServingInfo present (checked in the replicaset-init
  branch). -/
  stateServingInfoPresent : Bool
  /-- initiateReplicaSet error. -/
  initiateReplicaSetError : Option String
  deriving DecidableEq, Repr

/-- The initialisation steps ensureMongoServer can run. -/
inductive MongoStep where
  | checkServiceInstalled
  | ensureAdminUser
  | ensureSharedSecret
  | checkReplicaset
  | getMachineAddresses
  | ensureServer
  | initiateReplicaSet
  deriving DecidableEq, Repr

/-- The tail of the ensureMongoServer body after the installed-service block:
build the ensure-server params, run EnsureMongoServer, then initiate the
replicaset when needed. -/
def ensureMongoServerTail (env : MongoEnv) (needReplicasetInit : Bool) :
    List MongoStep × Option String :=
  match env.newEnsureServerParamsError with
  | some e => ([], some e)
  | none =>
    match env.ensureMongoServerError with
    | some e => ([.ensureServer], some e)
    | none =>
      if needReplicasetInit then
        if !env.stateServingInfoPresent then
          ([.ensureServer], some "state worker started with no state serving info")
        else if !env.mongoInfoPresent then
          ([.ensureServer], some "unable to retrieve mongo info to initiate replicaset")
        else
          match env.initiateReplicaSetError with
          | some e => ([.ensureServer, .initiateReplicaSet], some e)
          | none => ([.ensureServer, .initiateReplicaSet], none)
      else ([.ensureServer], none)

/-- The installed-service block of the ensureMongoServer body: admin user,
shared secret, mongo info, replicaset check, machine addresses. Returns the
steps run, the error if any, and the needReplicasetInit flag that feeds the
tail. -/
def ensureMongoServerInstalledBlock (env : MongoEnv) :
    List MongoStep × Option String × Bool :=
  match env.ensureAdminUserError with
  | some e => ([.ensureAdminUser], some e, false)
  | none =>
    match env.ensureSharedSecretError with
    | some e => ([.ensureAdminUser, .ensureSharedSecret], some e, false)
    | none =>
      if !env.mongoInfoPresent then
        ([.ensureAdminUser, .ensureSharedSecret],
          some "unable to retrieve mongo info to check replicaset", false)
      else
        match env.isReplicasetInitNeeded with
        | .error e =>
          ([.ensureAdminUser, .ensureSharedSecret, .checkReplicaset],
            some ("error while checking replicaset: " ++ e), false)
        | .ok needed =>
          if needed then
            match env.getMachineAddressesError with
            | some e =>
              ([.ensureAdminUser, .ensureSharedSecret, .checkReplicaset,
                .getMachineAddresses], some e, false)
            | none =>
              ([.ensureAdminUser, .ensureSharedSecret, .checkReplicaset,
                .getMachineAddresses], none, true)
          else
            ([.ensureAdminUser, .ensureSharedSecret, .checkReplicaset],
              none, false)

/-- The body of machine.go ensureMongoServer, run when the initialized flag
is not yet set: returns the steps performed and the terminal error, if any. -/
def ensureMongoServerBody (env : MongoEnv) : List MongoStep × Option String :=
  match env.isServiceInstalled with
  | .error e =>
    ([.checkServiceInstalled],
      some ("error while checking if mongodb service is installed: " ++ e))
  | .ok installed =>
    if installed then
      let blk := ensureMongoServerInstalledBlock env
      match blk.2.1 with
      | some e => (.checkServiceInstalled :: blk.1, some e)
      | none =>
        let tail := ensureMongoServerTail env blk.2.2
        (.checkServiceInstalled :: blk.1 ++ tail.1, tail.2)
    else
      let tail := ensureMongoServerTail env false
      (.checkServiceInstalled :: tail.1, tail.2)

/-- machine.go MachineAgent.ensureMongoServer: under the mongoInitMutex, an
initialized flag makes the call return nil immediately with no steps run;
otherwise the body runs, and the deferred update sets the flag iff the body
returned nil. Result: (new flag value, (steps run, error)). -/
def ensureMongoServer (initialized : Bool) (env : MongoEnv) :
    Bool × (List MongoStep × Option String) :=
  if initialized then (true, ([], none))
  else
    let body := ensureMongoServerBody env
    match body.2 with
    | none => (true, (body.1, none))
    | some e => (false, (body.1, some e))

/-! ## Image metadata (package imagemetadata, src/unnamed/part_000)

Go maps are modelled as association lists; the reflective json-tag walk
(tags / fieldByTag / setFieldByTag) is modelled by explicit per-struct tag
tables over exactly the string fields carrying json tags in the source. -/

/-- imagemetadata ImageMetadata: the string fields with their json tags
id, root_store, virt, crsn, region, endpoint. -/
structure ImageMetadata where
  Id : String
  Storage : String
  VType : String
  RegionAlias : String
  RegionName : String
  Endpoint : String
  deriving DecidableEq, Repr

/-- imagemetadata imageCollection: items plus the region/endpoint strings
(json tags region, endpoint). -/
structure ImageCollection where
  Images : List (String × ImageMetadata)
  RegionName : String
  Endpoint : String
  deriving DecidableEq, Repr

/-- imagemetadata imageMetadataCatalog: string fields with json tags
release, version, arch, region, endpoint, plus the versions map. -/
structure ImageMetadataCatalog where
  Series : String
  Version : String
  Arch : String
  RegionName : String
  Endpoint : String
  Images : List (String × ImageCollection)
  deriving DecidableEq, Repr

/-- imagemetadata cloudImageMetadata: products, aliases
(tag to value to attribute-value map), updated, format. -/
structure CloudImageMetadata where
  Products : List (String × ImageMetadataCatalog)
  Aliases : List (String × List (String × List (String × String)))
  Updated : String
  Format : String
  deriving DecidableEq, Repr

/-- Association-list lookup, modelling Go map indexing. -/
def alistLookup {α : Type} (l : List (String × α)) (k : String) : Option α :=
  (l.find? (fun p => p.1 = k)).map (fun p => p.2)

/-- The json tags of the string fields of ImageMetadata (the tags map the
reflective walk produces for that type). -/
def imageTags : List String :=
  ["id", "root_store", "virt", "crsn", "region", "endpoint"]

/-- imagemetadata fieldByTag on an ImageMetadata value. -/
def imageFieldByTag (im : ImageMetadata) (tag : String) : String :=
  if tag = "id" then im.Id
  else if tag = "root_store" then im.Storage
  else if tag = "virt" then im.VType
  else if tag = "crsn" then im.RegionAlias
  else if tag = "region" then im.RegionName
  else if tag = "endpoint" then im.Endpoint
  else ""

/-- imagemetadata setFieldByTag on an ImageMetadata value: set the field only
when override is true or the current value is blank; unknown tags are
ignored. -/
def setImageFieldByTag (im : ImageMetadata) (tag v : String) (override : Bool) :
    ImageMetadata :=
  if tag = "id" then
    if override || im.Id = "" then { im with Id := v } else im
  else if tag = "root_store" then
    if override || im.Storage = "" then { im with Storage := v } else im
  else if tag = "virt" then
    if override || im.VType = "" then { im with VType := v } else im
  else if tag = "crsn" then
    if override || im.RegionAlias = "" then { im with RegionAlias := v } else im
  else if tag = "region" then
    if override || im.RegionName = "" then { im with RegionName := v } else im
  else if tag = "endpoint" then
    if override || im.Endpoint = "" then { im with Endpoint := v } else im
  else im

/-- The json tags of the string fields of imageCollection. -/
def collectionTags : List String := ["region", "endpoint"]

/-- imagemetadata fieldByTag on an imageCollection value. -/
def collectionFieldByTag (c : ImageCollection) (tag : String) : String :=
  if tag = "region" then c.RegionName
  else if tag = "endpoint" then c.Endpoint
  else ""

/-- imagemetadata setFieldByTag on an imageCollection value. -/
def setCollectionFieldByTag (c : ImageCollection) (tag v : String)
    (override : Bool) : ImageCollection :=
  if tag = "region" then
    if override || c.RegionName = "" then { c with RegionName := v } else c
  else if tag = "endpoint" then
    if override || c.Endpoint = "" then { c with Endpoint := v } else c
  else c

/-- imagemetadata fieldByTag on an imageMetadataCatalog value. -/
def catalogFieldByTag (cat : ImageMetadataCatalog) (tag : String) : String :=
  if tag = "release" then cat.Series
  else if tag = "version" then cat.Version
  else if tag = "arch" then cat.Arch
  else if tag = "region" then cat.RegionName
  else if tag = "endpoint" then cat.Endpoint
  else ""

/-- imagemetadata inherit(dst, src) for dst an imageCollection and src its
catalog: fill each blank tagged field of dst from the same tag in src. -/
def inheritCollection (dst : ImageCollection) (src : ImageMetadataCatalog) :
    ImageCollection :=
  collectionTags.foldl
    (fun c tag => setCollectionFieldByTag c tag (catalogFieldByTag src tag) false)
    dst

/-- imagemetadata inherit(dst, src) for dst an ImageMetadata and src the
(already catalog-inherited) collection copy: fill each blank tagged field of
dst from the same tag in src ("" when src has no such tag). -/
def inheritImage (dst : ImageMetadata) (src : ImageCollection) : ImageMetadata :=
  imageTags.foldl
    (fun im tag => setImageFieldByTag im tag (collectionFieldByTag src tag) false)
    dst

/-- imagemetadata cloudImageMetadata.denormaliseImageMetadata: for every
image, take a copy of its collection, inherit catalog values into the copy,
then inherit the copy's values into the image. The stored collections and
catalogs themselves are unchanged. -/
def denormaliseImageMetadata (m : CloudImageMetadata) : CloudImageMetadata :=
  { m with Products := m.Products.map (fun p =>
      (p.1, { p.2 with Images := p.2.Images.map (fun q =>
        (q.1, { q.2 with Images := q.2.Images.map (fun r =>
          (r.1, inheritImage r.2 (inheritCollection q.2 p.2))) })) })) }

/-- One aliased attribute set applied with override semantics
(the inner loop of processAliases). -/
def applyAliasFields (im : ImageMetadata) (fields : List (String × String)) :
    ImageMetadata :=
  fields.foldl (fun im2 av => setImageFieldByTag im2 av.1 av.2 true) im

/-- imagemetadata cloudImageMetadata.processAliases: for each tagged field of
the image, look the tag up in the aliases table, then look the field's
*current* value up among that tag's aliases, and if found apply all the
aliased attribute values with override. The source iterates the tags with
`for tag := range tags(im)`, a Go map range whose order is randomized per
loop; `order` records the order one run used — a run's order is some
permutation of `imageTags`. Because each lookup reads the current (possibly
already aliased) field value, chained alias tables make the result depend on
the order. -/
def processAliases (order : List String) (m : CloudImageMetadata)
    (im : ImageMetadata) : ImageMetadata :=
  order.foldl
    (fun im2 tag =>
      match alistLookup m.Aliases tag with
      | none => im2
      | some aliases =>
        match alistLookup aliases (imageFieldByTag im2 tag) with
        | none => im2
        | some fields => applyAliasFields im2 fields)
    im

/-- imagemetadata cloudImageMetadata.applyAliases: apply processAliases to
every image record. Each image's range loop draws its own randomized tag
order; `ords` assigns the order used for the image at (product id, version,
image key). -/
def applyAliases (ords : String → String → String → List String)
    (m : CloudImageMetadata) : CloudImageMetadata :=
  { m with Products := m.Products.map (fun p =>
      (p.1, { p.2 with Images := p.2.Images.map (fun q =>
        (q.1, { q.2 with Images := q.2.Images.map (fun r =>
          (r.1, processAliases (ords p.1 q.1 r.1) m r.2)) })) })) }

/-- imagemetadata indexReference.getCloudMetadataWithFormat, from the point
where the product data has been fetched: `parsed` is the unmarshal result
(none models a JSON error); on a format match the document has aliases
applied first and is then denormalised. `ords` carries the tag iteration
orders the run's alias pass happened to use (see processAliases). -/
def getCloudMetadataWithFormat (ords : String → String → String → List String)
    (parsed : Option CloudImageMetadata) (format : String) :
    Except String CloudImageMetadata :=
  match parsed with
  | none => .error "cannot unmarshal JSON image metadata"
  | some m =>
    if m.Format ≠ format then .error "unexpected index file format"
    else
      let withAliases := applyAliases ords m
      .ok (denormaliseImageMetadata withAliases)

/-! ## Example values (used by witnesses) -/

/-- An example image record with a region alias and blank region/endpoint. -/
def exImage : ImageMetadata :=
  { Id := "ami-26745463", Storage := "ebs", VType := "", RegionAlias := "usee1",
    RegionName := "", Endpoint := "" }

/-- An example image collection holding `exImage`, with a blank region. -/
def exColl : ImageCollection :=
  { Images := [("usee1he", exImage)], RegionName := "", Endpoint := "" }

/-- An example catalog holding `exColl`. -/
def exCatalog : ImageMetadataCatalog :=
  { Series := "precise", Version := "12.04", Arch := "amd64",
    RegionName := "us-east-1", Endpoint := "https://ec2.us-east-1.amazonaws.com",
    Images := [("20121218", exColl)] }

/-- An example metadata document with one product and one alias table entry
keyed by the crsn tag. -/
def exMetadata : CloudImageMetadata :=
  { Products := [("com.ubuntu.cloud:server:12.04:amd64", exCatalog)],
    Aliases := [("crsn", [("usee1",
      [("region", "us-east-1"),
       ("endpoint", "https://ec2.us-east-1.amazonaws.com")])])],
    Updated := "Wed, 01 May 2013 13:31:26 +0000",
    Format := "products:1.0" }

/-- An image whose crsn alias chains into a region alias: its region and
endpoint are blank and its RegionAlias is keyed in the aliases table. -/
def exChainImage : ImageMetadata :=
  { Id := "ami-00000001", Storage := "ebs", VType := "pv", RegionAlias := "usee1",
    RegionName := "", Endpoint := "" }

/-- A collection holding `exChainImage`. -/
def exChainColl : ImageCollection :=
  { Images := [("usee1pe", exChainImage)], RegionName := "", Endpoint := "" }

/-- A catalog holding `exChainColl`. -/
def exChainCatalog : ImageMetadataCatalog :=
  { Series := "precise", Version := "12.04", Arch := "amd64",
    RegionName := "", Endpoint := "", Images := [("20121218", exChainColl)] }

/-- A document whose aliases table keys both crsn and region, so alias
application chains: expanding crsn first makes the region value match the
region alias, expanding region first finds nothing. -/
def exChainMetadata : CloudImageMetadata :=
  { Products := [("com.ubuntu.cloud:server:12.04:amd64", exChainCatalog)],
    Aliases := [("crsn", [("usee1", [("region", "us-east-1")])]),
                ("region", [("us-east-1",
                  [("endpoint", "https://ec2.us-east-1.amazonaws.com")])])],
    Updated := "Wed, 01 May 2013 13:31:26 +0000",
    Format := "products:1.0" }

/-- A tag iteration order visiting crsn before region. -/
def exChainOrder1 : List String :=
  ["id", "root_store", "virt", "crsn", "region", "endpoint"]

/-- A tag iteration order visiting region before crsn. -/
def exChainOrder2 : List String :=
  ["region", "id", "root_store", "virt", "crsn", "endpoint"]

/-! ## Helper lemmas -/

/-- The dying-worker id never collides with the model uuid it is derived
from: the prefixed name is strictly longer. -/
theorem dyingEnvWorkerId_ne (uuid : String) : dyingEnvWorkerId uuid ≠ uuid := by
  intro h
  have h2 := congrArg String.length h
  simp [dyingEnvWorkerId, String.length_append] at h2
  exact absurd h2 (by decide)

/-- discoverService is attempted exactly when the effective service name is
non-empty. -/
theorem discoverService_mem_servicePart (env : UninstallEnv) :
    (UninstallStep.discoverService ∈ (serviceRemovalPart env).1) ↔
      effectiveAgentServiceName env ≠ "" := by
  unfold serviceRemovalPart
  split_ifs with hn <;>
    rcases h : env.discoverServiceResult with e | u <;>
    rcases hr : env.serviceRemoveError with _ | e2 <;>
    simp_all

/-- The container part never attempts service discovery. -/
theorem discoverService_not_mem_lxcPart (env : UninstallEnv) :
    UninstallStep.discoverService ∉ (lxcPart env).1 := by
  unfold lxcPart
  rcases h : env.runningInsideLXC with e | b
  · simp
  · rcases b <;> rcases hd : env.detachLoopDevicesError with _ | e2 <;> simp

/-- detachLoopDevices is attempted exactly when the inside-LXC probe succeeds
and reports true. -/
theorem detachLoop_mem_lxcPart (env : UninstallEnv) :
    (UninstallStep.detachLoopDevices ∈ (lxcPart env).1) ↔
      env.runningInsideLXC = .ok true := by
  unfold lxcPart
  rcases h : env.runningInsideLXC with e | b
  · simp
  · rcases b <;> rcases hd : env.detachLoopDevicesError with _ | e2 <;> simp

/-- The service part never attempts loop-device detach. -/
theorem detachLoop_not_mem_servicePart (env : UninstallEnv) :
    UninstallStep.detachLoopDevices ∉ (serviceRemovalPart env).1 := by
  unfold serviceRemovalPart
  split_ifs with hn <;>
    rcases h : env.discoverServiceResult with e | u <;>
    rcases hr : env.serviceRemoveError with _ | e2 <;>
    simp_all

/-- The steps uninstallAgent attempts do not depend on which per-step calls
fail: every later step is attempted even when earlier steps produced
errors. -/
theorem uninstallSteps_ignore_errors (env : UninstallEnv)
    (x y z w u v : Option String) :
    uninstallSteps
      { env with
        serviceRemoveError := x,
        jujuRunRemoveError := y,
        jujuDumpLogsRemoveError := z,
        detachLoopDevicesError := w,
        mongoRemoveServiceError := u,
        removeAllError := v } = uninstallSteps env := by
  unfold uninstallSteps serviceRemovalPart lxcPart effectiveAgentServiceName
  rcases hd : env.discoverServiceResult with e | u2 <;>
    rcases hl : env.runningInsideLXC with e2 | b <;>
    rcases x with _ | xe <;>
    rcases w with _ | we <;>
    rcases hsr : env.serviceRemoveError with _ | se <;>
    rcases hdl : env.detachLoopDevicesError with _ | de <;>
    (try cases b) <;>
    split_ifs <;>
    simp_all

/-- The first step of every run of the ensureMongoServer body is the
installed-service check. -/
theorem checkServiceInstalled_mem_body (env : MongoEnv) :
    MongoStep.checkServiceInstalled ∈ (ensureMongoServerBody env).1 := by
  rcases h : env.isServiceInstalled with e | b
  · simp [ensureMongoServerBody, h]
  · rcases b
    · simp [ensureMongoServerBody, h]
    · rcases hb : (ensureMongoServerInstalledBlock env).2.1 with _ | e
      · simp [ensureMongoServerBody, h, hb]
      · simp [ensureMongoServerBody, h, hb]

/-- The flag-false call always reports the steps of the body run. -/
theorem ensureMongoServer_false_steps (env : MongoEnv) :
    (ensureMongoServer false env).2.1 = (ensureMongoServerBody env).1 := by
  unfold ensureMongoServer
  rcases h : (ensureMongoServerBody env).2 with _ | e <;> simp [h]

/-- Closed form of inherit on a collection copy: each of the two tagged
fields is replaced by the catalog value exactly when blank. -/
theorem inheritCollection_eq (c : ImageCollection) (cat : ImageMetadataCatalog) :
    inheritCollection c cat =
      { c with
        RegionName := if c.RegionName = "" then cat.RegionName else c.RegionName,
        Endpoint := if c.Endpoint = "" then cat.Endpoint else c.Endpoint } := by
  rcases c with ⟨imgs, rn, ep⟩
  simp [inheritCollection, collectionTags, setCollectionFieldByTag,
    catalogFieldByTag]
  split_ifs <;> simp_all

set_option maxHeartbeats 1600000 in
/-- Closed form of inherit on an image: region and endpoint are replaced by
the collection value exactly when blank; the four tags the collection lacks
(id, root_store, virt, crsn) are never changed (a blank one is overwritten
with the blank string the source lookup returns). -/
theorem inheritImage_eq (im : ImageMetadata) (c : ImageCollection) :
    inheritImage im c =
      { im with
        RegionName := if im.RegionName = "" then c.RegionName else im.RegionName,
        Endpoint := if im.Endpoint = "" then c.Endpoint else im.Endpoint } := by
  rcases im with ⟨i, st, vt, ra, rn, ep⟩
  by_cases hi : i = "" <;> by_cases hst : st = "" <;> by_cases hvt : vt = "" <;>
    by_cases hra : ra = "" <;> by_cases hrn : rn = "" <;> by_cases hep : ep = "" <;>
    simp [inheritImage, imageTags, setImageFieldByTag, collectionFieldByTag,
      hi, hst, hvt, hra, hrn, hep]

/-! ## Claim theorems -/

/-- C5: the pair (restoreMode, restoring) only moves along
idle → preparing → running → idle: over the reachable flag pairs,
PrepareRestore succeeds exactly from idle and then yields preparing,
BeginRestore succeeds exactly from preparing and then yields running,
EndRestore always yields idle, a failing call leaves the agent unchanged,
and every operation preserves reachability. -/
theorem c5_restore_state_machine (a : MachineAgent) (h : a.restoreReachable = true) :
    (a.PrepareRestore.1 = none ↔ a.restorePair = idlePair) ∧
    (a.PrepareRestore.1 = none → a.PrepareRestore.2.restorePair = preparingPair) ∧
    (a.PrepareRestore.1 ≠ none → a.PrepareRestore.2 = a) ∧
    (a.BeginRestore.1 = none ↔ a.restorePair = preparingPair) ∧
    (a.BeginRestore.1 = none → a.BeginRestore.2.restorePair = runningPair) ∧
    (a.BeginRestore.1 ≠ none → a.BeginRestore.2 = a) ∧
    a.EndRestore.restorePair = idlePair ∧
    a.PrepareRestore.2.restoreReachable = true ∧
    a.BeginRestore.2.restoreReachable = true ∧
    a.EndRestore.restoreReachable = true := by
  rcases a with ⟨mid, rm, rs, uc, ic⟩
  cases rm <;> cases rs <;>
    simp_all [MachineAgent.PrepareRestore, MachineAgent.BeginRestore,
      MachineAgent.EndRestore, MachineAgent.restorePair,
      MachineAgent.restoreReachable, idlePair, preparingPair, runningPair]

/-- C5 witness: the theorem applied to the idle agent. -/
theorem c5_restore_state_machine_witness :
    let a : MachineAgent :=
      { machineId := "0", restoreMode := false, restoring := false,
        upgradeCompleteClosed := false, initialAgentUpgradeCheckClosed := false }
    a.restoreReachable = true ∧
    ((a.PrepareRestore.1 = none ↔ a.restorePair = idlePair) ∧
     (a.PrepareRestore.1 = none → a.PrepareRestore.2.restorePair = preparingPair) ∧
     (a.PrepareRestore.1 ≠ none → a.PrepareRestore.2 = a) ∧
     (a.BeginRestore.1 = none ↔ a.restorePair = preparingPair) ∧
     (a.BeginRestore.1 = none → a.BeginRestore.2.restorePair = runningPair) ∧
     (a.BeginRestore.1 ≠ none → a.BeginRestore.2 = a) ∧
     a.EndRestore.restorePair = idlePair ∧
     a.PrepareRestore.2.restoreReachable = true ∧
     a.BeginRestore.2.restoreReachable = true ∧
     a.EndRestore.restoreReachable = true) :=
  ⟨rfl, c5_restore_state_machine _ rfl⟩

/-- C2: while IsRestoreRunning is true, a login is admitted (no error from
the restore limiter, and none from the full limitLogins chain either when the
upgrade gates are closed) exactly when its auth tag is the agent's own
machine tag. -/
theorem c2_login_during_restore_running (a : MachineAgent) (req : LoginRequest)
    (h : a.IsRestoreRunning = true) :
    (a.limitLoginsDuringRestore req = none ↔
      req.authTag = some (Tag.machine a.machineId)) ∧
    (a.limitLogins req = none ↔
      req.authTag = some (Tag.machine a.machineId)) := by
  have hr : a.restoring = true := h
  rcases req with ⟨tag⟩
  rcases tag with _ | t
  · simp [MachineAgent.limitLogins, MachineAgent.limitLoginsDuringRestore,
      MachineAgent.IsRestoreRunning, hr]
  · rcases t with n | id | srepr
    · simp [MachineAgent.limitLogins, MachineAgent.limitLoginsDuringRestore,
        MachineAgent.IsRestoreRunning, hr]
    · by_cases hid : id = a.machineId
      · subst hid
        simp [MachineAgent.limitLogins, MachineAgent.limitLoginsDuringRestore,
          MachineAgent.limitLoginsDuringUpgrade, MachineAgent.IsRestoreRunning,
          MachineAgent.tag, hr]
      · simp [MachineAgent.limitLogins, MachineAgent.limitLoginsDuringRestore,
          MachineAgent.IsRestoreRunning, MachineAgent.tag, hr, hid]
    · simp [MachineAgent.limitLogins, MachineAgent.limitLoginsDuringRestore,
        MachineAgent.IsRestoreRunning, hr]

/-- C2 witness: the theorem applied to a restoring agent and its own login. -/
theorem c2_login_during_restore_running_witness :
    let a : MachineAgent :=
      { machineId := "0", restoreMode := true, restoring := true,
        upgradeCompleteClosed := true, initialAgentUpgradeCheckClosed := true }
    let req : LoginRequest := { authTag := some (Tag.machine "0") }
    a.IsRestoreRunning = true ∧
    ((a.limitLoginsDuringRestore req = none ↔
       req.authTag = some (Tag.machine a.machineId)) ∧
     (a.limitLogins req = none ↔
       req.authTag = some (Tag.machine a.machineId))) :=
  ⟨rfl, c2_login_during_restore_running _ _ rfl⟩

/-- C6: while an upgrade is running or the initial agent-upgrade check has
not completed, the agent's own machine tag is allowed, a user tag receives
the upgrade-in-progress error, and any other machine tag is refused; when
neither condition holds the upgrade limiter allows every request. -/
theorem c6_login_during_upgrade (a : MachineAgent) (req : LoginRequest) :
    ((a.isUpgradeRunning || a.isAgentUpgradePending) = true →
      (req.authTag = some (Tag.machine a.machineId) →
        a.limitLoginsDuringUpgrade req = none) ∧
      (∀ n, req.authTag = some (Tag.user n) →
        a.limitLoginsDuringUpgrade req = some .upgradeInProgress) ∧
      (∀ id, req.authTag = some (Tag.machine id) → id ≠ a.machineId →
        a.limitLoginsDuringUpgrade req =
          some (.loginBlockedUpgrade (Tag.machine id)))) ∧
    ((a.isUpgradeRunning || a.isAgentUpgradePending) = false →
      a.limitLoginsDuringUpgrade req = none) := by
  rcases req with ⟨tag⟩
  constructor
  · intro hup
    refine ⟨?_, ?_, ?_⟩
    · intro htag
      simp only at htag
      subst htag
      simp [MachineAgent.limitLoginsDuringUpgrade, MachineAgent.tag, hup]
    · intro n htag
      simp only at htag
      subst htag
      simp [MachineAgent.limitLoginsDuringUpgrade, hup]
    · intro id htag hid
      simp only at htag
      subst htag
      simp [MachineAgent.limitLoginsDuringUpgrade, MachineAgent.tag, hup, hid]
  · intro hdown
    simp [MachineAgent.limitLoginsDuringUpgrade, hdown]

/-- C6 witness: the theorem applied to an agent mid-upgrade and its own
login. -/
theorem c6_login_during_upgrade_witness :
    let a : MachineAgent :=
      { machineId := "0", restoreMode := false, restoring := false,
        upgradeCompleteClosed := false, initialAgentUpgradeCheckClosed := false }
    let req : LoginRequest := { authTag := some (Tag.machine "0") }
    ((a.isUpgradeRunning || a.isAgentUpgradePending) = true →
      (req.authTag = some (Tag.machine a.machineId) →
        a.limitLoginsDuringUpgrade req = none) ∧
      (∀ n, req.authTag = some (Tag.user n) →
        a.limitLoginsDuringUpgrade req = some .upgradeInProgress) ∧
      (∀ id, req.authTag = some (Tag.machine id) → id ≠ a.machineId →
        a.limitLoginsDuringUpgrade req =
          some (.loginBlockedUpgrade (Tag.machine id)))) ∧
    ((a.isUpgradeRunning || a.isAgentUpgradePending) = false →
      a.limitLoginsDuringUpgrade req = none) :=
  c6_login_during_upgrade _ _

/-- C4: on any schedule valid for the observed channel states, the waiter
body invokes the inner factory only if the upgrade-complete gate (and the
initial-check gate) had been Set at their selects, and when the
upgrade-complete gate is still Unset at the first select (the stop-before-Set
scenario) the body returns nil without ever invoking the factory. -/
theorem c4_upgrade_waiter (s : WaiterSchedule) (obs1 obs2 : GateObservation)
    (hv : scheduleValid s obs1 obs2 = true) :
    (upgradeWaiterWait s = .invokedInner →
      obs1.upgradeCompleteClosed = true ∧ obs2.initialCheckClosed = true) ∧
    (obs1.upgradeCompleteClosed = false →
      upgradeWaiterWait s = .returnedNilWithoutStart) := by
  rcases s with ⟨c1, c2⟩
  cases c1 <;> cases c2 <;> simp_all [scheduleValid, upgradeWaiterWait]

/-- C4 witness: the theorem applied to a stop-before-Set schedule. -/
theorem c4_upgrade_waiter_witness :
    let s : WaiterSchedule := { first := .stop, second := .stop }
    let obs : GateObservation :=
      { stopClosed := true, upgradeCompleteClosed := false,
        initialCheckClosed := false }
    scheduleValid s obs obs = true ∧
    ((upgradeWaiterWait s = .invokedInner →
       obs.upgradeCompleteClosed = true ∧ obs.initialCheckClosed = true) ∧
     (obs.upgradeCompleteClosed = false →
       upgradeWaiterWait s = .returnedNilWithoutStart)) :=
  ⟨rfl, c4_upgrade_waiter _ _ _ rfl⟩

/-- C1 counterexample: with both the alive-runner and the dying-runner of
model m-1 in desired running state, handling a Dead event leaves the
dying-runner running, so it is false that neither runner remains desired
running. -/
theorem c1_counterexample :
    ¬ (desiredRunning
         (envHasChanged ["m-1", dyingEnvWorkerId "m-1"] "m-1" (some .dead))
         "m-1" = false ∧
       desiredRunning
         (envHasChanged ["m-1", dyingEnvWorkerId "m-1"] "m-1" (some .dead))
         (dyingEnvWorkerId "m-1") = false) := by
  decide

/-- C1 (amended): handling a Dead event for a model stops the alive-runner
only; the dying-runner (and every other registered worker) keeps its previous
desired state. Both runners are stopped only by the not-found case. -/
theorem c1_dead_stops_alive_runner_only (s : RunnerState) (uuid : String) :
    desiredRunning (envHasChanged s uuid (some .dead)) uuid = false ∧
    desiredRunning (envHasChanged s uuid (some .dead)) (dyingEnvWorkerId uuid) =
      desiredRunning s (dyingEnvWorkerId uuid) ∧
    (∀ n, n ≠ uuid →
      desiredRunning (envHasChanged s uuid (some .dead)) n = desiredRunning s n) ∧
    desiredRunning (envHasChanged s uuid none) uuid = false ∧
    desiredRunning (envHasChanged s uuid none) (dyingEnvWorkerId uuid) = false := by
  refine ⟨?_, ?_, ?_, ?_, ?_⟩
  · simp [envHasChanged, envIsDead, stopWorker, desiredRunning, List.mem_filter]
  · simp [envHasChanged, envIsDead, stopWorker, desiredRunning, List.mem_filter,
      dyingEnvWorkerId_ne uuid]
  · intro n hn
    simp [envHasChanged, envIsDead, stopWorker, desiredRunning, List.mem_filter, hn]
  · simp [envHasChanged, envNotFound, stopWorker, desiredRunning, List.mem_filter]
  · simp [envHasChanged, envNotFound, stopWorker, desiredRunning, List.mem_filter]

/-- C1 (amended) witness: the theorem applied to a state with both runners
registered. -/
theorem c1_dead_stops_alive_runner_only_witness :
    let s : RunnerState := ["m-1", dyingEnvWorkerId "m-1"]
    desiredRunning (envHasChanged s "m-1" (some .dead)) "m-1" = false ∧
    desiredRunning (envHasChanged s "m-1" (some .dead)) (dyingEnvWorkerId "m-1") =
      desiredRunning s (dyingEnvWorkerId "m-1") ∧
    (∀ n, n ≠ "m-1" →
      desiredRunning (envHasChanged s "m-1" (some .dead)) n = desiredRunning s n) ∧
    desiredRunning (envHasChanged s "m-1" none) "m-1" = false ∧
    desiredRunning (envHasChanged s "m-1" none) (dyingEnvWorkerId "m-1") = false :=
  c1_dead_stops_alive_runner_only _ _

/-- C3: when runner.Wait returns the TerminateAgent sentinel, Run replaces
it with the result of uninstallAgent: without the uninstall marker no step is
performed and the exit is clean (no error handed on); with the marker the
steps performed are exactly uninstallSteps, which always include symlink
removal, mongo-service removal and data-dir removal, include service
discovery exactly when a service name is configured (or inherited from
UPSTART_JOB), and include loop-device detach exactly when the agent runs
inside a container. -/
theorem c3_terminate_agent_uninstall (env : UninstallEnv) :
    (env.uninstallFileExists = false →
      runAfterWait .terminateAgent env = ([], none)) ∧
    (env.uninstallFileExists = true →
      (runAfterWait .terminateAgent env).1 = uninstallSteps env ∧
      UninstallStep.removeSymlinks ∈ uninstallSteps env ∧
      UninstallStep.removeMongoService ∈ uninstallSteps env ∧
      UninstallStep.removeDataDir ∈ uninstallSteps env ∧
      ((UninstallStep.discoverService ∈ uninstallSteps env) ↔
        effectiveAgentServiceName env ≠ "") ∧
      ((UninstallStep.detachLoopDevices ∈ uninstallSteps env) ↔
        env.runningInsideLXC = .ok true)) := by
  constructor
  · intro h
    simp [runAfterWait, uninstallAgent, h]
  · intro h
    refine ⟨by simp [runAfterWait, uninstallAgent, h], ?_, ?_, ?_, ?_, ?_⟩
    · simp [uninstallSteps]
    · simp [uninstallSteps]
    · simp [uninstallSteps]
    · simp [uninstallSteps, discoverService_mem_servicePart,
        discoverService_not_mem_lxcPart]
    · simp [uninstallSteps, detachLoop_mem_lxcPart,
        detachLoop_not_mem_servicePart]

/-- C3 witness: the theorem applied to an in-container environment with the
marker present. -/
theorem c3_terminate_agent_uninstall_witness :
    let env : UninstallEnv :=
      { uninstallFileExists := true, agentServiceNameConfig := "jujud-machine-0",
        upstartJobEnvVar := "", discoverServiceResult := .ok (),
        serviceRemoveError := none, jujuRunRemoveError := none,
        jujuDumpLogsRemoveError := none, runningInsideLXC := .ok true,
        detachLoopDevicesError := none, mongoRemoveServiceError := none,
        removeAllError := none }
    (env.uninstallFileExists = false →
      runAfterWait .terminateAgent env = ([], none)) ∧
    (env.uninstallFileExists = true →
      (runAfterWait .terminateAgent env).1 = uninstallSteps env ∧
      UninstallStep.removeSymlinks ∈ uninstallSteps env ∧
      UninstallStep.removeMongoService ∈ uninstallSteps env ∧
      UninstallStep.removeDataDir ∈ uninstallSteps env ∧
      ((UninstallStep.discoverService ∈ uninstallSteps env) ↔
        effectiveAgentServiceName env ≠ "") ∧
      ((UninstallStep.detachLoopDevices ∈ uninstallSteps env) ↔
        env.runningInsideLXC = .ok true)) :=
  c3_terminate_agent_uninstall _

/-- C9: past the marker check, uninstallAgent attempts every step regardless
of which earlier calls failed (the attempted-step list does not depend on the
per-call error outcomes), returns nil exactly when no step produced an
error, and otherwise returns one error carrying the full list of collected
per-step errors. -/
theorem c9_uninstall_error_aggregation (env : UninstallEnv)
    (h : env.uninstallFileExists = true) :
    ((uninstallAgent env).2 = none ↔ uninstallErrors env = []) ∧
    (uninstallErrors env ≠ [] →
      (uninstallAgent env).2 = some (uninstallErrors env)) ∧
    (uninstallAgent env).1 = uninstallSteps env ∧
    (∀ x y z w u v, uninstallSteps
        { env with
          serviceRemoveError := x,
          jujuRunRemoveError := y,
          jujuDumpLogsRemoveError := z,
          detachLoopDevicesError := w,
          mongoRemoveServiceError := u,
          removeAllError := v } =
      uninstallSteps env) := by
  refine ⟨?_, ?_, ?_, ?_⟩
  · by_cases he : uninstallErrors env = [] <;>
      simp [uninstallAgent, h, he, List.isEmpty_iff]
  · intro hne
    simp [uninstallAgent, h, List.isEmpty_iff, hne]
  · simp [uninstallAgent, h]
  · intro x y z w u v
    exact uninstallSteps_ignore_errors env x y z w u v

/-- C9 witness: the theorem applied to an environment where the mongo-service
removal fails and everything else succeeds. -/
theorem c9_uninstall_error_aggregation_witness :
    let env : UninstallEnv :=
      { uninstallFileExists := true, agentServiceNameConfig := "",
        upstartJobEnvVar := "", discoverServiceResult := .ok (),
        serviceRemoveError := none, jujuRunRemoveError := none,
        jujuDumpLogsRemoveError := none, runningInsideLXC := .ok false,
        detachLoopDevicesError := none,
        mongoRemoveServiceError := some "exit status 1",
        removeAllError := none }
    env.uninstallFileExists = true ∧
    (((uninstallAgent env).2 = none ↔ uninstallErrors env = []) ∧
     (uninstallErrors env ≠ [] →
       (uninstallAgent env).2 = some (uninstallErrors env)) ∧
     (uninstallAgent env).1 = uninstallSteps env ∧
     (∀ x y z w u v, uninstallSteps
         { env with
           serviceRemoveError := x,
           jujuRunRemoveError := y,
           jujuDumpLogsRemoveError := z,
           detachLoopDevicesError := w,
           mongoRemoveServiceError := u,
           removeAllError := v } =
       uninstallSteps env)) :=
  ⟨rfl, c9_uninstall_error_aggregation _ rfl⟩

/-- C10: ensureMongoServer is at-most-once on success and retryable on
failure: with the initialized flag already set the call returns nil
immediately with no initialization step run; a nil body run sets the flag,
so the next invocation returns nil immediately; an error run leaves the flag
unset, so the next invocation re-attempts initialization (it runs the body,
beginning with the installed-service check). -/
theorem c10_ensure_mongo_once (env env2 : MongoEnv) :
    ensureMongoServer true env = (true, ([], none)) ∧
    ((ensureMongoServerBody env).2 = none →
      ensureMongoServer false env = (true, ((ensureMongoServerBody env).1, none)) ∧
      ensureMongoServer (ensureMongoServer false env).1 env2 = (true, ([], none))) ∧
    (∀ e, (ensureMongoServerBody env).2 = some e →
      ensureMongoServer false env =
        (false, ((ensureMongoServerBody env).1, some e)) ∧
      MongoStep.checkServiceInstalled ∈
        (ensureMongoServer (ensureMongoServer false env).1 env2).2.1) := by
  refine ⟨by simp [ensureMongoServer], ?_, ?_⟩
  · intro hnone
    constructor
    · simp [ensureMongoServer, hnone]
    · simp [ensureMongoServer, hnone]
  · intro e he
    constructor
    · simp [ensureMongoServer, he]
    · have h1 : (ensureMongoServer false env).1 = false := by
        simp [ensureMongoServer, he]
      rw [h1, ensureMongoServer_false_steps]
      exact checkServiceInstalled_mem_body env2

/-- C10 witness: the theorem applied to an environment whose first run fails
at the replicaset check and a second environment that succeeds. -/
theorem c10_ensure_mongo_once_witness :
    let env : MongoEnv :=
      { isServiceInstalled := .ok true, ensureAdminUserError := none,
        ensureSharedSecretError := none, mongoInfoPresent := true,
        isReplicasetInitNeeded := .error "not reachable",
        getMachineAddressesError := none, newEnsureServerParamsError := none,
        ensureMongoServerError := none, stateServingInfoPresent := true,
        initiateReplicaSetError := none }
    let env2 : MongoEnv :=
      { isServiceInstalled := .ok false, ensureAdminUserError := none,
        ensureSharedSecretError := none, mongoInfoPresent := true,
        isReplicasetInitNeeded := .ok false, getMachineAddressesError := none,
        newEnsureServerParamsError := none, ensureMongoServerError := none,
        stateServingInfoPresent := true, initiateReplicaSetError := none }
    ensureMongoServer true env = (true, ([], none)) ∧
    ((ensureMongoServerBody env).2 = none →
      ensureMongoServer false env = (true, ((ensureMongoServerBody env).1, none)) ∧
      ensureMongoServer (ensureMongoServer false env).1 env2 = (true, ([], none))) ∧
    (∀ e, (ensureMongoServerBody env).2 = some e →
      ensureMongoServer false env =
        (false, ((ensureMongoServerBody env).1, some e)) ∧
      MongoStep.checkServiceInstalled ∈
        (ensureMongoServer (ensureMongoServer false env).1 env2).2.1) :=
  c10_ensure_mongo_once _ _

/-- C7 counterexample: the claim's determinism conclusion is false of the
source. Two runs of getCloudMetadataWithFormat on the same successfully
parsed document, differing only in the randomized tag iteration order of the
alias pass (both orders are permutations of the tags map's key set, as a Go
map range produces), return different results: visiting crsn before region
chains the crsn alias into the region alias and fills the endpoint, visiting
region first does not. -/
theorem c7_counterexample :
    exChainOrder1.Perm imageTags ∧ exChainOrder2.Perm imageTags ∧
    getCloudMetadataWithFormat (fun _ _ _ => exChainOrder1) (some exChainMetadata)
        "products:1.0" ≠
      getCloudMetadataWithFormat (fun _ _ _ => exChainOrder2) (some exChainMetadata)
        "products:1.0" := by
  decide

/-- C7 (amended): for every successfully parsed document whose format
matches, the pipeline applies alias expansion to every image record first and
only then runs the inheritance/denormalisation pass: for the tag iteration
orders the run's alias pass happened to use, the result is exactly
denormaliseImageMetadata (applyAliases ords parsed). The result is a
function of the document and those orders, but not of the document alone:
chained alias tables make the alias pass order-dependent. -/
theorem c7_aliases_applied_before_inheritance (m : CloudImageMetadata)
    (format : String) (ords : String → String → String → List String)
    (h : m.Format = format) :
    getCloudMetadataWithFormat ords (some m) format =
      .ok (denormaliseImageMetadata (applyAliases ords m)) := by
  simp [getCloudMetadataWithFormat, h]

/-- C7 (amended) witness: the theorem applied to the example document with
every image visiting its tags in the declared field order. -/
theorem c7_aliases_applied_before_inheritance_witness :
    exMetadata.Format = "products:1.0" ∧
    getCloudMetadataWithFormat (fun _ _ _ => imageTags) (some exMetadata)
        "products:1.0" =
      .ok (denormaliseImageMetadata
        (applyAliases (fun _ _ _ => imageTags) exMetadata)) :=
  ⟨rfl, c7_aliases_applied_before_inheritance _ _ _ rfl⟩

/-- C8: the denormalisation pass maps each image record to the result of
inheriting from its (catalog-inherited) collection copy, and that inherit
fills a tagged string field only when it is blank: id, root_store, virt and
crsn are never changed, and region/endpoint keep any non-empty value, while
a blank region/endpoint is filled from the collection when the collection
has one, else from the catalog. -/
theorem c8_denormalise_fills_only_blanks (m : CloudImageMetadata)
    (i j k : Nat) (pid vers key : String)
    (cat : ImageMetadataCatalog) (coll : ImageCollection) (im : ImageMetadata)
    (hp : m.Products[i]? = some (pid, cat))
    (hv : cat.Images[j]? = some (vers, coll))
    (hk : coll.Images[k]? = some (key, im)) :
    ∃ cat2 coll2,
      (denormaliseImageMetadata m).Products[i]? = some (pid, cat2) ∧
      cat2.Images[j]? = some (vers, coll2) ∧
      coll2.Images[k]? = some (key, inheritImage im (inheritCollection coll cat)) ∧
      (inheritImage im (inheritCollection coll cat)).Id = im.Id ∧
      (inheritImage im (inheritCollection coll cat)).Storage = im.Storage ∧
      (inheritImage im (inheritCollection coll cat)).VType = im.VType ∧
      (inheritImage im (inheritCollection coll cat)).RegionAlias = im.RegionAlias ∧
      (im.RegionName ≠ "" →
        (inheritImage im (inheritCollection coll cat)).RegionName = im.RegionName) ∧
      (im.Endpoint ≠ "" →
        (inheritImage im (inheritCollection coll cat)).Endpoint = im.Endpoint) ∧
      (im.RegionName = "" →
        (inheritImage im (inheritCollection coll cat)).RegionName =
          (if coll.RegionName = "" then cat.RegionName else coll.RegionName)) ∧
      (im.Endpoint = "" →
        (inheritImage im (inheritCollection coll cat)).Endpoint =
          (if coll.Endpoint = "" then cat.Endpoint else coll.Endpoint)) := by
  refine ⟨{ cat with Images := cat.Images.map (fun q =>
        (q.1, { q.2 with Images := q.2.Images.map (fun r =>
          (r.1, inheritImage r.2 (inheritCollection q.2 cat))) })) },
      { coll with Images := coll.Images.map (fun r =>
        (r.1, inheritImage r.2 (inheritCollection coll cat))) },
      ?_, ?_, ?_, ?_, ?_, ?_, ?_, ?_, ?_, ?_, ?_⟩
  · simp [denormaliseImageMetadata, List.getElem?_map, hp]
  · simp [List.getElem?_map, hv]
  · simp [List.getElem?_map, hk]
  · rw [inheritImage_eq]
  · rw [inheritImage_eq]
  · rw [inheritImage_eq]
  · rw [inheritImage_eq]
  · intro h2
    rw [inheritImage_eq]
    simp [h2]
  · intro h2
    rw [inheritImage_eq]
    simp [h2]
  · intro h2
    rw [inheritImage_eq, inheritCollection_eq]
    simp [h2]
  · intro h2
    rw [inheritImage_eq, inheritCollection_eq]
    simp [h2]

/-- C8 witness: the theorem applied to the example document at position
(0, 0, 0): the blank region of the example image is filled from the catalog,
its non-empty id and storage are unchanged. -/
theorem c8_denormalise_fills_only_blanks_witness :
    exMetadata.Products[0]? = some ("com.ubuntu.cloud:server:12.04:amd64", exCatalog) ∧
    exCatalog.Images[0]? = some ("20121218", exColl) ∧
    exColl.Images[0]? = some ("usee1he", exImage) ∧
    (∃ cat2 coll2,
      (denormaliseImageMetadata exMetadata).Products[0]? =
        some ("com.ubuntu.cloud:server:12.04:amd64", cat2) ∧
      cat2.Images[0]? = some ("20121218", coll2) ∧
      coll2.Images[0]? =
        some ("usee1he", inheritImage exImage (inheritCollection exColl exCatalog)) ∧
      (inheritImage exImage (inheritCollection exColl exCatalog)).Id = exImage.Id ∧
      (inheritImage exImage (inheritCollection exColl exCatalog)).Storage =
        exImage.Storage ∧
      (inheritImage exImage (inheritCollection exColl exCatalog)).VType =
        exImage.VType ∧
      (inheritImage exImage (inheritCollection exColl exCatalog)).RegionAlias =
        exImage.RegionAlias ∧
      (exImage.RegionName ≠ "" →
        (inheritImage exImage (inheritCollection exColl exCatalog)).RegionName =
          exImage.RegionName) ∧
      (exImage.Endpoint ≠ "" →
        (inheritImage exImage (inheritCollection exColl exCatalog)).Endpoint =
          exImage.Endpoint) ∧
      (exImage.RegionName = "" →
        (inheritImage exImage (inheritCollection exColl exCatalog)).RegionName =
          (if exColl.RegionName = "" then exCatalog.RegionName
           else exColl.RegionName)) ∧
      (exImage.Endpoint = "" →
        (inheritImage exImage (inheritCollection exColl exCatalog)).Endpoint =
          (if exColl.Endpoint = "" then exCatalog.Endpoint
           else exColl.Endpoint))) :=
  ⟨rfl, rfl, rfl,
    c8_denormalise_fills_only_blanks exMetadata 0 0 0 _ _ _ _ _ _ rfl rfl rfl⟩

end JujuVerify
